import Mathlib

set_option maxRecDepth 8000

/-!
Verification development for the GhostStream ingestion pipeline
(`src/ingest.py`). The Python source is shallowly embedded: pure helpers
become Lean functions, the external world (ffprobe/ffmpeg results, random
nonce, object store and catalog store responses) is an explicit oracle
record, and the orchestrating `main` becomes `run_pipeline`, which returns
the terminal result together with the ordered list of durable side effects
issued to the object store and the catalog store.

Modelling conventions:
- Python floats are modelled as exact rationals (`ℚ`); the comparisons the
  code performs on durations are order comparisons that agree with the
  float comparisons on all values appearing in the claims.
- Bytes are `Nat` values `< 256`; 32-bit words use explicit `% 2^32`.
- Python `str.strip` / `str.lower` are modelled for ASCII text
  (`python_strip`, `Char.toLower`), matching the code's usage.
- `hmac.new(key, msg, hashlib.sha256)` and `base64` are realised by a full
  HMAC-SHA256 and base64 implementation below; `AESGCM.encrypt` is an
  opaque external primitive, carried as a function-valued oracle field.
-/

/-! ## Byte and string helpers -/

/-- ASCII whitespace recognised by Python `str.strip()`. -/
def pyIsSpace (c : Char) : Bool :=
  c = ' ' || c = '\t' || c = '\n' || c = '\r' || c = '\x0b' || c = '\x0c'

/-- Python `str.strip()` on the character list of a string. -/
def python_strip (cs : List Char) : List Char :=
  ((cs.dropWhile pyIsSpace).reverse.dropWhile pyIsSpace).reverse

/-- Split a character list at commas; models Python `str.split(",")`. -/
def splitCommaAux : List Char → List Char → List (List Char)
  | [], acc => [acc.reverse]
  | c :: rest, acc =>
    if c = ',' then acc.reverse :: splitCommaAux rest []
    else splitCommaAux rest (c :: acc)

/-- Python `s.split(",")`. -/
def splitComma (s : String) : List String :=
  (splitCommaAux s.data []).map (fun cs => ⟨cs⟩)

/-- UTF-8 encoding of one character; models Python `str.encode("utf-8")`. -/
def utf8Char (c : Char) : List Nat :=
  let n := c.toNat
  if n < 128 then [n]
  else if n < 2048 then [192 + n / 64, 128 + n % 64]
  else if n < 65536 then [224 + n / 4096, 128 + n / 64 % 64, 128 + n % 64]
  else [240 + n / 262144, 128 + n / 4096 % 64, 128 + n / 64 % 64, 128 + n % 64]

/-- UTF-8 byte encoding of a string. -/
def utf8Bytes (s : String) : List Nat := (s.data.map utf8Char).flatten

/-- Lowercase hex digit, as produced by Python `hexdigest()`. -/
def hexDigitChar (n : Nat) : Char :=
  if n < 10 then Char.ofNat (48 + n) else Char.ofNat (87 + n)

/-- Lowercase hex encoding of a byte list; models `hexdigest()`. -/
def bytesToHex (bs : List Nat) : String :=
  ⟨(bs.map (fun b => [hexDigitChar (b / 16), hexDigitChar (b % 16)])).flatten⟩

/-! ## SHA-256 and HMAC-SHA256 (Python `hashlib` / `hmac`) -/

/-- Truncation to a 32-bit word. -/
def w32 (n : Nat) : Nat := n % 4294967296

/-- 32-bit right rotation. -/
def rotr32 (r x : Nat) : Nat := w32 ((x >>> r) ||| (x <<< (32 - r)))

/-- SHA-256 round constants (FIPS 180-4, written in decimal). -/
def sha_K : List Nat :=
  [1116352408, 1899447441, 3049323471, 3921009573, 961987163,
   1508970993, 2453635748, 2870763221, 3624381080, 310598401,
   607225278, 1426881987, 1925078388, 2162078206, 2614888103,
   3248222580, 3835390401, 4022224774, 264347078, 604807628,
   770255983, 1249150122, 1555081692, 1996064986, 2554220882,
   2821834349, 2952996808, 3210313671, 3336571891, 3584528711,
   113926993, 338241895, 666307205, 773529912, 1294757372,
   1396182291, 1695183700, 1986661051, 2177026350, 2456956037,
   2730485921, 2820302411, 3259730800, 3345764771, 3516065817,
   3600352804, 4094571909, 275423344, 430227734, 506948616,
   659060556, 883997877, 958139571, 1322822218, 1537002063,
   1747873779, 1955562222, 2024104815, 2227730452, 2361852424,
   2428436474, 2756734187, 3204031479, 3329325298]

/-- SHA-256 initial hash state (FIPS 180-4, written in decimal). -/
def sha_H0 : List Nat :=
  [1779033703, 3144134277, 1013904242, 2773480762, 1359893119,
   2600822924, 528734635, 1541459225]

/-- SHA-256 message-schedule sigma 0. -/
def sigma_small0 (x : Nat) : Nat := rotr32 7 x ^^^ rotr32 18 x ^^^ (x >>> 3)

/-- SHA-256 message-schedule sigma 1. -/
def sigma_small1 (x : Nat) : Nat := rotr32 17 x ^^^ rotr32 19 x ^^^ (x >>> 10)

/-- SHA-256 round-function Sigma 0. -/
def sigma_big0 (x : Nat) : Nat := rotr32 2 x ^^^ rotr32 13 x ^^^ rotr32 22 x

/-- SHA-256 round-function Sigma 1. -/
def sigma_big1 (x : Nat) : Nat := rotr32 6 x ^^^ rotr32 11 x ^^^ rotr32 25 x

/-- Extend the 16-word message schedule by the given number of words. -/
def sha_extend : Nat → List Nat → List Nat
  | 0, ws => ws
  | n + 1, ws =>
    let i := ws.length
    let w := w32 (ws.getD (i - 16) 0 + sigma_small0 (ws.getD (i - 15) 0) +
                  ws.getD (i - 7) 0 + sigma_small1 (ws.getD (i - 2) 0))
    sha_extend n (ws ++ [w])

/-- One SHA-256 compression round on the 8-word working state. -/
def sha_round (st : List Nat) (kw : Nat) : List Nat :=
  match st with
  | [a, b, c, d, e, f, g, h] =>
    let ch := (e &&& f) ^^^ ((e ^^^ 0xffffffff) &&& g)
    let maj := (a &&& b) ^^^ (a &&& c) ^^^ (b &&& c)
    let t1 := w32 (h + sigma_big1 e + ch + kw)
    let t2 := w32 (sigma_big0 a + maj)
    [w32 (t1 + t2), a, b, c, w32 (d + t1), e, f, g]
  | other => other

/-- Pack big-endian byte quadruples into 32-bit words. -/
def wordsOfBytes : List Nat → List Nat
  | a :: b :: c :: d :: rest => (a * 16777216 + b * 65536 + c * 256 + d) :: wordsOfBytes rest
  | _ => []

/-- Big-endian byte expansion of a 32-bit word. -/
def word_be4 (n : Nat) : List Nat :=
  [n / 16777216 % 256, n / 65536 % 256, n / 256 % 256, n % 256]

/-- SHA-256 compression of one 64-byte block into the hash state. -/
def sha_compress (h : List Nat) (block : List Nat) : List Nat :=
  let ws := sha_extend 48 (wordsOfBytes block)
  let st := (sha_K.zip ws).foldl (fun st kw => sha_round st (w32 (kw.1 + kw.2))) h
  List.zipWith (fun x y => w32 (x + y)) h st

/-- Split a list into chunks of `k` elements, driven by explicit fuel. -/
def chunksOfAux (k : Nat) : Nat → List Nat → List (List Nat)
  | 0, _ => []
  | _, [] => []
  | fuel + 1, l => l.take k :: chunksOfAux k fuel (l.drop k)

/-- 64-bit big-endian byte expansion. -/
def be8 (n : Nat) : List Nat :=
  [n / 2 ^ 56 % 256, n / 2 ^ 48 % 256, n / 2 ^ 40 % 256, n / 2 ^ 32 % 256,
   n / 2 ^ 24 % 256, n / 2 ^ 16 % 256, n / 2 ^ 8 % 256, n % 256]

/-- SHA-256 message padding. -/
def sha_pad (msg : List Nat) : List Nat :=
  let L := msg.length
  let k := (64 + 56 - (L + 1) % 64) % 64
  msg ++ [0x80] ++ List.replicate k 0 ++ be8 (8 * L)

/-- SHA-256 digest of a byte list. -/
def sha256 (msg : List Nat) : List Nat :=
  let blocks := chunksOfAux 64 (sha_pad msg).length (sha_pad msg)
  ((blocks.foldl sha_compress sha_H0).map word_be4).flatten

/-- HMAC-SHA256; models Python `hmac.new(key, msg, hashlib.sha256)`. -/
def hmac_sha256 (key msg : List Nat) : List Nat :=
  let k1 := if key.length > 64 then sha256 key else key
  let k2 := k1 ++ List.replicate (64 - k1.length) 0
  sha256 ((k2.map (· ^^^ 0x5c)) ++ sha256 ((k2.map (· ^^^ 0x36)) ++ msg))

/-! ## Base64 (Python `base64.b64encode` / `b64decode`) -/

/-- The standard base64 alphabet. -/
def b64Alphabet : List Char :=
  "ABCDEFGHIJKLMNOPQRSTUVWXYZabcdefghijklmnopqrstuvwxyz0123456789+/".data

/-- Alphabet character of a 6-bit value. -/
def b64CharOf (n : Nat) : Char := b64Alphabet.getD n 'A'

/-- 6-bit value of an alphabet character, `none` for non-alphabet input. -/
def b64ValueOf (c : Char) : Option Nat := b64Alphabet.indexOf? c

/-- Base64 encoding of a byte list, three bytes at a time with padding. -/
def b64EncodeChars : List Nat → List Char
  | [] => []
  | [a] => [b64CharOf (a / 4), b64CharOf (a % 4 * 16), '=', '=']
  | [a, b] => [b64CharOf (a / 4), b64CharOf (a % 4 * 16 + b / 16), b64CharOf (b % 16 * 4), '=']
  | a :: b :: c :: rest =>
    b64CharOf (a / 4) :: b64CharOf (a % 4 * 16 + b / 16) ::
      b64CharOf (b % 16 * 4 + c / 64) :: b64CharOf (c % 64) :: b64EncodeChars rest

/-- `bytes_to_b64` from the source: base64-encode bytes into a string. -/
def bytes_to_b64 (bs : List Nat) : String := ⟨b64EncodeChars bs⟩

/-- Decode base64 in groups of four characters; `none` models the
`binascii.Error` raised by Python on invalid padding. -/
def b64DecodeGroups : List Char → Option (List Nat)
  | [] => some []
  | [a, b, '=', '='] => do
    let va ← b64ValueOf a
    let vb ← b64ValueOf b
    some [va * 4 + vb / 16]
  | [a, b, c, '='] => do
    let va ← b64ValueOf a
    let vb ← b64ValueOf b
    let vc ← b64ValueOf c
    some [va * 4 + vb / 16, vb % 16 * 16 + vc / 4]
  | a :: b :: c :: d :: rest => do
    let va ← b64ValueOf a
    let vb ← b64ValueOf b
    let vc ← b64ValueOf c
    let vd ← b64ValueOf d
    let tail ← b64DecodeGroups rest
    some ((va * 4 + vb / 16) :: (vb % 16 * 16 + vc / 4) :: (vc % 4 * 64 + vd) :: tail)
  | _ => none

/-- `b64_to_bytes` from the source: Python `base64.b64decode` discards
characters outside the alphabet, then decodes groups of four; a leftover
group is an error (`none`). -/
def b64_to_bytes (s : String) : Option (List Nat) :=
  b64DecodeGroups (s.data.filter (fun c => (b64ValueOf c).isSome || c = '='))

/-! ## Probe data model and error taxonomy -/

/-- `ProbeInfo` from the source: the result of one `ffprobe` invocation. -/
structure ProbeInfo where
  duration_seconds : ℚ
  width : Nat
  height : Nat
  video_codec : String
  audio_codec : Option String
  container : String
deriving Repr, DecidableEq

/-- The spec's error taxonomy. The source raises `RuntimeError` with a
distinguishing message; each message is mapped to its taxonomy name.
`Base64DecodeError` models the `binascii.Error` that Python's
`base64.b64decode` raises for an undecodable key (outside the taxonomy),
and `EmptyTagTokenError` the `RuntimeError` raised by
`compute_tag_hmac_hex` on an empty normalized token. -/
inductive IngestError where
  | ProbeError
  | TranscodeError
  | UpscaleViolation
  | CodecViolation
  | ContainerViolation
  | ThumbnailError
  | KeyConfigurationError
  | NoValidTagsError
  | StorageError
  | CatalogError
  | Base64DecodeError
  | EmptyTagTokenError
deriving Repr, DecidableEq

/-- `is_mp4_container` from the source: the approved container family,
checked on the comma-separated alias list returned by ffprobe. -/
def is_mp4_container (container : String) : Bool :=
  (splitComma container).contains "mp4" || (splitComma container).contains "mov"

/-! ## Resolution policy -/

/-- `choose_cap` from the source: 720 for durations below 600 seconds,
480 otherwise. -/
def choose_cap (duration_seconds : ℚ) : Nat :=
  if duration_seconds < 600 then 720 else 480

/-- `make_scale_filter` from the source: the ffmpeg downscale expression
with even width and a min-bound of the height against `ih`. -/
def make_scale_filter (cap : Nat) : String :=
  "scale=-2:\x27min(" ++ toString cap ++ ",ih)\x27"

/-- The source's scale planning (`main`, line 328): a filter is produced
only when the input height exceeds the cap. -/
def plan_scale (input_height cap : Nat) : Option String :=
  if input_height > cap then some (make_scale_filter cap) else none

/-- Modelled semantics of applying `scale=-2:\x27min(cap,ih)\x27` to a
`w`-by-`h` frame: output height is `min cap h`; the `-2` width keeps the
aspect ratio and rounds to the next even value. -/
def apply_scale_filter (cap w h : Nat) : Nat × Nat :=
  let h2 := min cap h
  ((w * h2 / h + 1) / 2 * 2, h2)

/-! ## Transcode paths -/

/-- The source's audio admissibility (`aac` or absent). -/
def audio_ok (a : Option String) : Bool := a = none || a = some "aac"

/-- `input_is_compliant` from `main`: approved container, `h264` video,
and `aac`-or-absent audio. -/
def input_is_compliant (inp : ProbeInfo) : Bool :=
  is_mp4_container inp.container && inp.video_codec = "h264" && audio_ok inp.audio_codec

/-- `will_reencode` from `main` (line 298). -/
def will_reencode (skip_compress : Bool) (inp : ProbeInfo) : Bool :=
  !skip_compress || !input_is_compliant inp

/-- The two transcode paths. -/
inductive TranscodePath where
  | remux
  | reencode
deriving Repr, DecidableEq

/-- The branch taken by `main` (line 308): remux only when `skip_compress`
is set and the input is already compliant. -/
def chosen_path (skip_compress : Bool) (inp : ProbeInfo) : TranscodePath :=
  if skip_compress && input_is_compliant inp then .remux else .reencode

/-- The stream-copy remux command from `main` (lines 310-322). -/
def remux_cmd (src out : String) : List String :=
  ["ffmpeg", "-y", "-i", src, "-c", "copy", "-movflags", "+faststart", out]

/-- The re-encode command from `main` (lines 329-352). -/
def reencode_cmd (src out : String) (inp : ProbeInfo) (cap : Nat) : List String :=
  ["ffmpeg", "-y", "-i", src, "-c:v", "libx264", "-preset", "fast", "-crf", "23",
   "-pix_fmt", "yuv420p", "-movflags", "+faststart"]
  ++ (match plan_scale inp.height cap with
      | some vf => ["-vf", vf]
      | none => [])
  ++ (match inp.audio_codec with
      | none => ["-an"]
      | some _ => ["-c:a", "aac", "-b:a", "128k"])
  ++ [out]

/-- The single ffmpeg invocation issued by the transcode stage. -/
def transcode_cmd (skip_compress : Bool) (inp : ProbeInfo) (cap : Nat)
    (src out : String) : List String :=
  match chosen_path skip_compress inp with
  | .remux => remux_cmd src out
  | .reencode => reencode_cmd src out inp cap

/-! ## Output validation (Invariant Validator) -/

/-- The post-transcode checks of `main` (lines 354-372), in source order:
no-upscale on height, no-upscale on width, video codec, audio codec,
container family. -/
def validate_output (inp out : ProbeInfo) : Except IngestError Unit :=
  if out.height > inp.height then .error .UpscaleViolation
  else if out.width > inp.width then .error .UpscaleViolation
  else if out.video_codec ≠ "h264" then .error .CodecViolation
  else if !audio_ok out.audio_codec then .error .CodecViolation
  else if !is_mp4_container out.container then .error .ContainerViolation
  else .ok ()

/-! ## Thumbnail stage -/

/-- Thumbnail timestamp from `main` (line 375): 10% of the output
duration clamped to [0.5, 5.0]. -/
def thumb_ts (duration_seconds : ℚ) : ℚ :=
  min (max (1 / 2) (duration_seconds * (1 / 10))) 5

/-- Thumbnail scale filter from `main` (line 377): downscale to height 360
only when the output is taller. -/
def thumb_vf (out_height : Nat) : Option String :=
  if out_height > 360 then some "scale=-2:360" else none

/-! ## Metadata protection -/

/-- The envelope JSON exactly as `json.dumps` with compact separators
serialises the dict of `encrypt_title_envelope_b64`: schema version 1,
algorithm identifier `A256GCM`, base64 nonce and base64
ciphertext-plus-tag. -/
def envelope_json (iv_b64 ct_b64 : String) : String :=
  "\x7b\"v\":1,\"alg\":\"A256GCM\",\"iv_b64\":\"" ++ iv_b64 ++
    "\",\"ct_b64\":\"" ++ ct_b64 ++ "\"\x7d"

/-- `encrypt_title_envelope_b64` from the source. `aesgcm key iv pt` is
the opaque `AESGCM(key).encrypt(iv, pt, None)` primitive (ciphertext with
appended auth tag) and `iv` the `os.urandom(12)` nonce drawn for this
call. -/
def encrypt_title_envelope_b64 (aesgcm : List Nat → List Nat → List Nat → List Nat)
    (iv : List Nat) (title : String) (aes_key_b64 : String) : Except IngestError String :=
  match b64_to_bytes aes_key_b64 with
  | none => .error .Base64DecodeError
  | some key =>
    if key.length ≠ 32 then .error .KeyConfigurationError
    else
      let ct := aesgcm key iv (utf8Bytes title)
      .ok (bytes_to_b64 (utf8Bytes (envelope_json (bytes_to_b64 iv) (bytes_to_b64 ct))))

/-- `normalize_tag` from the source: strip then lowercase. -/
def normalize_tag (tag : String) : String :=
  ⟨(python_strip tag.data).map Char.toLower⟩

/-- The token list built in `main` (lines 401-402): split on commas,
strip, normalize, drop empty results. -/
def tag_tokens_of (tags : String) : List String :=
  (((splitComma tags).map (fun t => ⟨python_strip t.data⟩)).map normalize_tag).filter
    (fun t => t ≠ "")

/-- `compute_tag_hmac_hex` from the source: decode the HMAC key, normalize
the tag, reject an empty token, and hex-encode the HMAC-SHA256 digest. -/
def compute_tag_hmac_hex (tag : String) (key_b64 : String) : Except IngestError String :=
  match b64_to_bytes key_b64 with
  | none => .error .Base64DecodeError
  | some key =>
    let token := normalize_tag tag
    if token = "" then .error .EmptyTagTokenError
    else .ok (bytesToHex (hmac_sha256 key (utf8Bytes token)))

/-- Tag indexing as performed in `main` (lines 401-406): build the token
list, fail with `NoValidTagsError` when it is empty, otherwise hash every
token in order. -/
def index_tags (tags key_b64 : String) : Except IngestError (List String) :=
  let tokens := tag_tokens_of tags
  if tokens = [] then .error .NoValidTagsError
  else tokens.mapM (fun t => compute_tag_hmac_hex t key_b64)

/-! ## Catalog record and pipeline effects -/

/-- Python's `round` (banker's rounding) composed with `int`, as used for
the stored duration. -/
def python_round (q : ℚ) : ℤ :=
  if q - ⌊q⌋ < 1 / 2 then ⌊q⌋
  else if q - ⌊q⌋ > 1 / 2 then ⌊q⌋ + 1
  else if ⌊q⌋ % 2 = 0 then ⌊q⌋ else ⌊q⌋ + 1

/-- Python `str.rstrip("/")`. -/
def rstrip_slashes (s : String) : String :=
  ⟨(s.data.reverse.dropWhile (fun c => c = '/')).reverse⟩

/-- The `videos` row built in `main` (lines 425-434). -/
structure VideoRow where
  title_enc : String
  duration_seconds : ℤ
  width : Nat
  height : Nat
  r2_bucket : String
  r2_video_key : String
  r2_thumb_key : String
  published : Bool
deriving Repr, DecidableEq

/-- A durable side effect issued against the object store or the catalog
store. -/
inductive Effect where
  | upload (bucket key contentType : String)
  | insertVideo (row : VideoRow)
  | insertTags (rows : List (Nat × String))
deriving Repr, DecidableEq

/-- Whether an effect is an object-store upload. -/
def Effect.isUpload : Effect → Bool
  | .upload .. => true
  | _ => false

/-- Whether an effect writes to the catalog store. -/
def Effect.isCatalogWrite : Effect → Bool
  | .insertVideo _ => true
  | .insertTags _ => true
  | _ => false

/-- Whether an effect is the tag-row insert. -/
def Effect.isInsertTags : Effect → Bool
  | .insertTags _ => true
  | _ => false

/-- The command-line arguments consumed by `main`. -/
structure Args where
  title : String
  tags : String
  skip_compress : Bool
  dry_run : Bool
  video_prefix_arg : String
  thumb_prefix_arg : String

/-- The external world consumed by one run of `main`: probe results,
external process outcomes, configuration keys, randomness, and store
responses. `insert_video_resp` is the `data` list of the video insert
response (`none` when the store returns no data). -/
structure World where
  probe_src : Except Unit ProbeInfo
  transcode_ok : Bool
  probe_out : Except Unit ProbeInfo
  thumb_ok : Bool
  aes_key_b64 : String
  tag_key_b64 : String
  aesgcm : List Nat → List Nat → List Nat → List Nat
  iv : List Nat
  obj_id : String
  bucket : String
  upload_video_ok : Bool
  upload_thumb_ok : Bool
  insert_video_resp : Option (List Nat)

/-- The object-store key for the transcoded video (`main`, line 410):
prefix stripped of trailing slashes, the fresh object id, extension
`.mp4`. -/
def video_key_of (args : Args) (w : World) : String :=
  rstrip_slashes args.video_prefix_arg ++ "/" ++ w.obj_id ++ ".mp4"

/-- The object-store key for the thumbnail (`main`, line 411): prefix
stripped of trailing slashes, the same fresh object id, extension
`.jpg`. -/
def thumb_key_of (args : Args) (w : World) : String :=
  rstrip_slashes args.thumb_prefix_arg ++ "/" ++ w.obj_id ++ ".jpg"

/-- The `videos` row as assembled in `main` (lines 425-434). -/
def video_row_of (title_enc : String) (out : ProbeInfo) (args : Args) (w : World) : VideoRow :=
  { title_enc := title_enc
    duration_seconds := python_round out.duration_seconds
    width := out.width
    height := out.height
    r2_bucket := w.bucket
    r2_video_key := video_key_of args w
    r2_thumb_key := thumb_key_of args w
    published := true }

/-- `True` when the video insert response reports anything other than
exactly one inserted row (`main`, line 442). -/
def bad_insert_resp (resp : Option (List Nat)) : Bool :=
  match resp with
  | none => true
  | some l => l.length ≠ 1

/-- `True` when the run failed before the catalog stage. -/
def failed_before_catalog (r : Except IngestError Unit) : Bool :=
  match r with
  | .error e => e ≠ .CatalogError
  | .ok _ => false

/-- Shallow embedding of `main` (`src/ingest.py`, lines 271-462): the
stages run in source order and the returned list is the ordered durable
side effects issued to the object store and the catalog store. A dry run
logs uploads and returns success before any insert; an upload or insert
that was issued is in the list even when it subsequently failed. -/
def run_pipeline (args : Args) (w : World) : Except IngestError Unit × List Effect :=
  match w.probe_src with
  | .error _ => (.error .ProbeError, [])
  | .ok inp =>
    if !w.transcode_ok then (.error .TranscodeError, [])
    else
      match w.probe_out with
      | .error _ => (.error .ProbeError, [])
      | .ok out =>
        match validate_output inp out with
        | .error e => (.error e, [])
        | .ok _ =>
          if !w.thumb_ok then (.error .ThumbnailError, [])
          else
            match encrypt_title_envelope_b64 w.aesgcm w.iv args.title w.aes_key_b64 with
            | .error e => (.error e, [])
            | .ok title_enc =>
              match index_tags args.tags w.tag_key_b64 with
              | .error e => (.error e, [])
              | .ok tag_hmacs =>
                if args.dry_run then (.ok (), [])
                else
                  let upV := Effect.upload w.bucket (video_key_of args w) "video/mp4"
                  if !w.upload_video_ok then (.error .StorageError, [upV])
                  else
                    let upT := Effect.upload w.bucket (thumb_key_of args w) "image/jpeg"
                    if !w.upload_thumb_ok then (.error .StorageError, [upV, upT])
                    else
                      let row := video_row_of title_enc out args w
                      match w.insert_video_resp with
                      | none => (.error .CatalogError, [upV, upT, .insertVideo row])
                      | some l =>
                        if l.length ≠ 1 then
                          (.error .CatalogError, [upV, upT, .insertVideo row])
                        else
                          let video_id := l.getD 0 0
                          (.ok (),
                            [upV, upT, .insertVideo row,
                             .insertTags (tag_hmacs.map (fun h => (video_id, h)))])

/-! ## Concrete sample data for witnesses -/

/-- A compliant 300-second 1920x1080 H.264/AAC MP4 probe result. -/
def sample_inp : ProbeInfo :=
  { duration_seconds := 300, width := 1920, height := 1080, video_codec := "h264",
    audio_codec := some "aac", container := "mov,mp4,m4a,3gp,3g2,mj2" }

/-- A compliant 1280x720 transcode output probe result. -/
def sample_out : ProbeInfo :=
  { duration_seconds := 300, width := 1280, height := 720, video_codec := "h264",
    audio_codec := some "aac", container := "mov,mp4,m4a,3gp,3g2,mj2" }

/-- An upscaled 3840x2160 output probe result, violating no-upscale. -/
def sample_out_upscaled : ProbeInfo :=
  { duration_seconds := 300, width := 3840, height := 2160, video_codec := "h264",
    audio_codec := some "aac", container := "mov,mp4,m4a,3gp,3g2,mj2" }

/-- Sample command-line arguments for a live run. -/
def sample_args : Args :=
  { title := "t", tags := "a", skip_compress := false, dry_run := false,
    video_prefix_arg := "videos", thumb_prefix_arg := "thumbs" }

/-- Sample command-line arguments for a dry run. -/
def sample_args_dry : Args := { sample_args with dry_run := true }

/-- Base64 encoding of 32 zero bytes: a valid AES-256 key. -/
def sample_key_b64 : String := "AAAAAAAAAAAAAAAAAAAAAAAAAAAAAAAAAAAAAAAAAAA="

/-- A fully successful external world. -/
def sample_world : World :=
  { probe_src := .ok sample_inp, transcode_ok := true, probe_out := .ok sample_out,
    thumb_ok := true, aes_key_b64 := sample_key_b64, tag_key_b64 := "",
    aesgcm := fun _ _ _ => [], iv := List.replicate 12 0, obj_id := "id-1234",
    bucket := "bkt", upload_video_ok := true, upload_thumb_ok := true,
    insert_video_resp := some [7] }

/-- A world whose transcode output upscales the input. -/
def sample_world_upscaled : World := { sample_world with probe_out := .ok sample_out_upscaled }

/-- A world whose catalog store reports zero inserted rows. -/
def sample_world_badresp : World := { sample_world with insert_video_resp := some [] }

/-! ## Helper lemmas on characters and stripping -/

/-- `Char.toNat` is injective. -/
theorem char_toNat_inj {a b : Char} (h : a.toNat = b.toNat) : a = b := by
  rw [← Char.ofNat_toNat a, ← Char.ofNat_toNat b, h]

/-- `Char.ofNat` inverts `Char.toNat` on valid code points. -/
theorem toNat_ofNat_valid (n : ℕ) (h : n.isValidChar) : (Char.ofNat n).toNat = n := by
  simp only [Char.ofNat, h, dif_pos, Char.ofNatAux, Char.toNat]
  rfl

/-- The code point of `Char.toLower`. -/
theorem toLower_toNat (c : Char) :
    c.toLower.toNat = if c.toNat ≥ 65 ∧ c.toNat ≤ 90 then c.toNat + 32 else c.toNat := by
  by_cases h : c.toNat ≥ 65 ∧ c.toNat ≤ 90
  · simp only [Char.toLower, if_pos h]
    exact toNat_ofNat_valid _ (Or.inl (by omega))
  · simp only [Char.toLower, if_neg h]

/-- Characters with code point at least 65 are not Python whitespace. -/
theorem pyIsSpace_false_of_ge (d : Char) (h : 65 ≤ d.toNat) : pyIsSpace d = false := by
  unfold pyIsSpace
  have h32 : d ≠ ' ' := fun he => by rw [he] at h; exact absurd h (by decide)
  have h9 : d ≠ '\t' := fun he => by rw [he] at h; exact absurd h (by decide)
  have h10 : d ≠ '\n' := fun he => by rw [he] at h; exact absurd h (by decide)
  have h13 : d ≠ '\r' := fun he => by rw [he] at h; exact absurd h (by decide)
  have h11 : d ≠ '\x0b' := fun he => by rw [he] at h; exact absurd h (by decide)
  have h12 : d ≠ '\x0c' := fun he => by rw [he] at h; exact absurd h (by decide)
  simp [h32, h9, h10, h13, h11, h12]

/-- Lowercasing does not change whether a character is whitespace. -/
theorem pyIsSpace_toLower (c : Char) : pyIsSpace c.toLower = pyIsSpace c := by
  by_cases h : c.toNat ≥ 65 ∧ c.toNat ≤ 90
  · have h1 : c.toLower.toNat = c.toNat + 32 := by rw [toLower_toNat, if_pos h]
    rw [pyIsSpace_false_of_ge c.toLower (by omega), pyIsSpace_false_of_ge c (by omega)]
  · have h1 : c.toLower = c := char_toNat_inj (by rw [toLower_toNat, if_neg h])
    rw [h1]

/-- `Char.toLower` is idempotent. -/
theorem toLower_idem (c : Char) : c.toLower.toLower = c.toLower := by
  apply char_toNat_inj
  rw [toLower_toNat c.toLower, toLower_toNat c]
  split_ifs <;> omega

/-- `List.dropWhile` is idempotent. -/
theorem dropWhile_idem (p : Char → Bool) (l : List Char) :
    List.dropWhile p (List.dropWhile p l) = List.dropWhile p l :=
  List.dropWhile_eq_self_iff.mpr (fun hl => List.dropWhile_get_zero_not p l hl)

/-- Stripping commutes with lowercasing. -/
theorem python_strip_map_toLower (cs : List Char) :
    python_strip (cs.map Char.toLower) = (python_strip cs).map Char.toLower := by
  have hp : pyIsSpace ∘ Char.toLower = pyIsSpace := funext pyIsSpace_toLower
  unfold python_strip
  rw [List.dropWhile_map, hp, ← List.map_reverse, List.dropWhile_map, hp, ← List.map_reverse]

/-- `python_strip` is idempotent. -/
theorem python_strip_idem (cs : List Char) :
    python_strip (python_strip cs) = python_strip cs := by
  unfold python_strip
  set A := cs.dropWhile pyIsSpace with hA
  set B := (A.reverse.dropWhile pyIsSpace).reverse with hB
  have hBrev : B.reverse = A.reverse.dropWhile pyIsSpace := by
    rw [hB, List.reverse_reverse]
  have hBA : B <+: A := by
    have hs := List.dropWhile_suffix (l := A.reverse) pyIsSpace
    rw [← hBrev] at hs
    exact List.reverse_suffix.mp hs
  have hstep : B.dropWhile pyIsSpace = B := by
    rw [List.dropWhile_eq_self_iff]
    intro hl
    have hlA : 0 < A.length := lt_of_lt_of_le hl hBA.length_le
    rw [List.get_eq_getElem, hBA.getElem hl]
    have := List.dropWhile_get_zero_not pyIsSpace cs hlA
    rw [List.get_eq_getElem] at this
    exact this
  rw [hstep, hBrev, dropWhile_idem, ← hBrev, List.reverse_reverse]

/-- `normalize_tag` is idempotent: a surviving token is already stripped
and lowercased, so normalizing it again returns it unchanged. -/
theorem normalize_tag_idem (t : String) :
    normalize_tag (normalize_tag t) = normalize_tag t := by
  unfold normalize_tag
  congr 1
  show (python_strip ((python_strip t.data).map Char.toLower)).map Char.toLower =
    (python_strip t.data).map Char.toLower
  rw [python_strip_map_toLower, python_strip_idem, List.map_map]
  exact List.map_congr_left (fun c _ => toLower_idem c)

/-- Every member of the token list is a non-empty fixed point of
`normalize_tag`. -/
theorem tag_tokens_normalized (tags : String) :
    ∀ t ∈ tag_tokens_of tags, normalize_tag t = t ∧ t ≠ "" := by
  intro t ht
  unfold tag_tokens_of at ht
  rw [List.mem_filter] at ht
  obtain ⟨hmem, hne⟩ := ht
  rw [List.mem_map] at hmem
  obtain ⟨u, _, rfl⟩ := hmem
  exact ⟨normalize_tag_idem u, by simpa using hne⟩

/-- Known-answer test: the FIPS 180-4 digest of the three-byte message
"abc" (bytes 97, 98, 99). -/
theorem sha256_known_answer :
    bytesToHex (sha256 [97, 98, 99]) =
      "ba7816bf8f01cfea414140de5dae2223b00361a396177a9cb410ff61f20015ad" := by
  rfl

/-- Known-answer test: RFC 4231 HMAC-SHA256 test case 2, key "Jefe" and
message "what do ya want for nothing?". -/
theorem hmac_sha256_known_answer :
    bytesToHex (hmac_sha256 [74, 101, 102, 101]
        (utf8Bytes "what do ya want for nothing?")) =
      "5bdcc146bf60754e6a042426089575c75a003f089d2739839dec58b964ec3843" := by
  rfl

/-- Hashing a list of surviving tokens never fails and yields exactly one
digest per token, in order. -/
theorem mapM_hmac_ok (key_b64 : String) (keyBytes : List Nat)
    (hk : b64_to_bytes key_b64 = some keyBytes) (ts : List String)
    (hts : ∀ t ∈ ts, normalize_tag t = t ∧ t ≠ "") :
    ts.mapM (fun t => compute_tag_hmac_hex t key_b64) =
      .ok (ts.map (fun t => bytesToHex (hmac_sha256 keyBytes (utf8Bytes t)))) := by
  induction ts with
  | nil => rfl
  | cons a l ih =>
    obtain ⟨ha, hane⟩ := hts a (List.mem_cons_self a l)
    have h1 : compute_tag_hmac_hex a key_b64 =
        .ok (bytesToHex (hmac_sha256 keyBytes (utf8Bytes a))) := by
      simp only [compute_tag_hmac_hex, hk]
      rw [ha, if_neg hane]
    rw [List.mapM_cons, h1, ih (fun t ht => hts t (List.mem_cons_of_mem a ht))]
    rfl

/-- When the HMAC key decodes and at least one token survives, tag
indexing succeeds with the ordered digest list. -/
theorem index_tags_ok (tags key_b64 : String) (keyBytes : List Nat)
    (hk : b64_to_bytes key_b64 = some keyBytes) (hne : tag_tokens_of tags ≠ []) :
    index_tags tags key_b64 = .ok ((tag_tokens_of tags).map
      (fun t => bytesToHex (hmac_sha256 keyBytes (utf8Bytes t)))) := by
  simp only [index_tags]
  rw [if_neg hne]
  exact mapM_hmac_ok key_b64 keyBytes hk _ (tag_tokens_normalized tags)

/-- Exhaustive case analysis of one pipeline run: either no durable side
effect was issued (and a success implies a dry run), or every stage
through tag indexing succeeded on a live run and the effect trace is one
of the four commit-phase shapes. -/
theorem run_pipeline_master (args : Args) (w : World) :
    ((run_pipeline args w).2 = [] ∧ ((run_pipeline args w).1 = .ok () → args.dry_run = true)) ∨
    (∃ inp out title_enc tag_hmacs,
      args.dry_run = false ∧
      w.probe_src = .ok inp ∧ w.transcode_ok = true ∧ w.probe_out = .ok out ∧
      validate_output inp out = .ok () ∧ w.thumb_ok = true ∧
      encrypt_title_envelope_b64 w.aesgcm w.iv args.title w.aes_key_b64 = .ok title_enc ∧
      index_tags args.tags w.tag_key_b64 = .ok tag_hmacs ∧
      (run_pipeline args w = (.error .StorageError,
          [.upload w.bucket (video_key_of args w) "video/mp4"]) ∨
       run_pipeline args w = (.error .StorageError,
          [.upload w.bucket (video_key_of args w) "video/mp4",
           .upload w.bucket (thumb_key_of args w) "image/jpeg"]) ∨
       (bad_insert_resp w.insert_video_resp = true ∧
        run_pipeline args w = (.error .CatalogError,
          [.upload w.bucket (video_key_of args w) "video/mp4",
           .upload w.bucket (thumb_key_of args w) "image/jpeg",
           .insertVideo (video_row_of title_enc out args w)])) ∨
       (∃ l, w.insert_video_resp = some l ∧ l.length = 1 ∧
        run_pipeline args w = (.ok (),
          [.upload w.bucket (video_key_of args w) "video/mp4",
           .upload w.bucket (thumb_key_of args w) "image/jpeg",
           .insertVideo (video_row_of title_enc out args w),
           .insertTags (tag_hmacs.map (fun h => (l.getD 0 0, h)))])))) := by
  cases hps : w.probe_src with
  | error u => exact Or.inl (by simp [run_pipeline, hps])
  | ok inp =>
  cases htc : w.transcode_ok with
  | false => exact Or.inl (by simp [run_pipeline, hps, htc])
  | true =>
  cases hpo : w.probe_out with
  | error u => exact Or.inl (by simp [run_pipeline, hps, htc, hpo])
  | ok out =>
  cases hv : validate_output inp out with
  | error e => exact Or.inl (by simp [run_pipeline, hps, htc, hpo, hv])
  | ok u =>
  cases u
  cases hth : w.thumb_ok with
  | false => exact Or.inl (by simp [run_pipeline, hps, htc, hpo, hv, hth])
  | true =>
  cases henc : encrypt_title_envelope_b64 w.aesgcm w.iv args.title w.aes_key_b64 with
  | error e => exact Or.inl (by simp [run_pipeline, hps, htc, hpo, hv, hth, henc])
  | ok title_enc =>
  cases hidx : index_tags args.tags w.tag_key_b64 with
  | error e => exact Or.inl (by simp [run_pipeline, hps, htc, hpo, hv, hth, henc, hidx])
  | ok tag_hmacs =>
  cases hdry : args.dry_run with
  | true => exact Or.inl (by simp [run_pipeline, hps, htc, hpo, hv, hth, henc, hidx, hdry])
  | false =>
  refine Or.inr ⟨inp, out, title_enc, tag_hmacs, rfl, rfl, rfl, rfl, hv, rfl, rfl, rfl, ?_⟩
  cases hupv : w.upload_video_ok with
  | false =>
    exact Or.inl (by simp [run_pipeline, hps, htc, hpo, hv, hth, henc, hidx, hdry, hupv])
  | true =>
  cases hupt : w.upload_thumb_ok with
  | false =>
    exact Or.inr (Or.inl
      (by simp [run_pipeline, hps, htc, hpo, hv, hth, henc, hidx, hdry, hupv, hupt]))
  | true =>
  cases hresp : w.insert_video_resp with
  | none =>
    refine Or.inr (Or.inr (Or.inl ⟨by simp [bad_insert_resp, hresp], ?_⟩))
    simp [run_pipeline, hps, htc, hpo, hv, hth, henc, hidx, hdry, hupv, hupt, hresp]
  | some l =>
    by_cases hlen : l.length = 1
    · refine Or.inr (Or.inr (Or.inr ⟨l, rfl, hlen, ?_⟩))
      simp [run_pipeline, hps, htc, hpo, hv, hth, henc, hidx, hdry, hupv, hupt, hresp, hlen]
    · refine Or.inr (Or.inr (Or.inl ⟨by simp [bad_insert_resp, hresp, hlen], ?_⟩))
      simp [run_pipeline, hps, htc, hpo, hv, hth, henc, hidx, hdry, hupv, hupt, hresp, hlen]

/-! ## Claim theorems -/

/-- C3: `choose_cap` returns 720 exactly on durations strictly below 600
seconds and returns 480 exactly on durations of at least 600 seconds; in
particular 599.999 maps to 720 and the 600-second boundary itself maps to
the lower cap 480. -/
theorem choose_cap_boundary :
    (∀ d : ℚ, choose_cap d = 720 ↔ d < 600) ∧
    (∀ d : ℚ, choose_cap d = 480 ↔ 600 ≤ d) ∧
    choose_cap (599.999 : ℚ) = 720 ∧ choose_cap (600 : ℚ) = 480 := by
  refine ⟨fun d => ?_, fun d => ?_, by norm_num [choose_cap], by norm_num [choose_cap]⟩
  · by_cases h : d < 600 <;> simp [choose_cap, h]
  · by_cases h : d < 600
    · rw [choose_cap, if_pos h]
      simp [not_le.mpr h]
    · rw [choose_cap, if_neg h]
      simp [not_lt.mp h]

/-- C4: when the input height is at most the cap, no scale filter is
planned (native resolution preserved); otherwise the plan is the
downscale-only min-bound expression, and its applied result has height at
most `min cap inputHeight`, an even width, and a width within one of the
aspect-preserving value. -/
theorem plan_scale_downscale_only (h cap w : Nat) :
    (h ≤ cap → plan_scale h cap = none) ∧
    (cap < h →
      plan_scale h cap = some (make_scale_filter cap) ∧
      (apply_scale_filter cap w h).2 ≤ min cap h ∧
      2 ∣ (apply_scale_filter cap w h).1 ∧
      w * min cap h / h ≤ (apply_scale_filter cap w h).1 ∧
      (apply_scale_filter cap w h).1 ≤ w * min cap h / h + 1) := by
  constructor
  · intro hle
    simp [plan_scale, Nat.not_lt.mpr hle]
  · intro hgt
    have hq : apply_scale_filter cap w h = ((w * min cap h / h + 1) / 2 * 2, min cap h) := rfl
    rw [hq]
    refine ⟨by simp [plan_scale, hgt], le_refl _, ?_, ?_, ?_⟩ <;>
      · generalize w * min cap h / h = q
        omega

/-- Witness for C4 at a 1080-high, 1920-wide input with cap 480 (filter
planned and bounded) and a 480-high input with cap 720 (no filter). -/
theorem plan_scale_downscale_only_witness :
    plan_scale 480 720 = none ∧
    plan_scale 1080 480 = some (make_scale_filter 480) ∧
    (apply_scale_filter 480 1920 1080).2 ≤ min 480 1080 ∧
    2 ∣ (apply_scale_filter 480 1920 1080).1 :=
  ⟨(plan_scale_downscale_only 480 720 1920).1 (by decide),
   ((plan_scale_downscale_only 1080 480 1920).2 (by decide)).1,
   ((plan_scale_downscale_only 1080 480 1920).2 (by decide)).2.1,
   ((plan_scale_downscale_only 1080 480 1920).2 (by decide)).2.2.1⟩

/-- C5: the remux branch is chosen exactly when skip-compress is set and
the probed input is already compliant; the re-encode branch is chosen
exactly when `will_reencode` holds; the two conditions are complementary;
the two paths are exhaustive and mutually exclusive; and the issued
command is the stream-copy command exactly on the remux branch. -/
theorem remux_path_selection (skip : Bool) (inp : ProbeInfo) (cap : Nat) (src out : String) :
    (chosen_path skip inp = .remux ↔ (skip && input_is_compliant inp) = true) ∧
    (chosen_path skip inp = .reencode ↔ will_reencode skip inp = true) ∧
    ((skip && input_is_compliant inp) = true ↔ will_reencode skip inp = false) ∧
    (chosen_path skip inp = .remux ∨ chosen_path skip inp = .reencode) ∧
    (transcode_cmd skip inp cap src out = remux_cmd src out ↔ chosen_path skip inp = .remux) := by
  cases hc : input_is_compliant inp <;> cases skip <;>
    simp [chosen_path, will_reencode, transcode_cmd, hc, remux_cmd, reencode_cmd]

/-- C1: the validator accepts exactly the outputs satisfying all five
checks; the checks fire in source order with the stated violation kinds
(height upscale, width upscale, video codec, audio codec, container); and
in any full pipeline run, on either transcode path, an output exceeding
the input in either dimension makes the run fail with
`UpscaleViolation`. -/
theorem validator_checks (args : Args) (w : World) (inp out : ProbeInfo)
    (hs : w.probe_src = .ok inp) (ht : w.transcode_ok = true) (ho : w.probe_out = .ok out) :
    (validate_output inp out = .ok () ↔
      (out.height ≤ inp.height ∧ out.width ≤ inp.width ∧ out.video_codec = "h264" ∧
       audio_ok out.audio_codec = true ∧ is_mp4_container out.container = true)) ∧
    (out.height > inp.height → validate_output inp out = .error .UpscaleViolation) ∧
    (out.height ≤ inp.height → out.width > inp.width →
      validate_output inp out = .error .UpscaleViolation) ∧
    (out.height ≤ inp.height → out.width ≤ inp.width → out.video_codec ≠ "h264" →
      validate_output inp out = .error .CodecViolation) ∧
    (out.height ≤ inp.height → out.width ≤ inp.width → out.video_codec = "h264" →
      audio_ok out.audio_codec = false → validate_output inp out = .error .CodecViolation) ∧
    (out.height ≤ inp.height → out.width ≤ inp.width → out.video_codec = "h264" →
      audio_ok out.audio_codec = true → is_mp4_container out.container = false →
      validate_output inp out = .error .ContainerViolation) ∧
    (out.height > inp.height ∨ out.width > inp.width →
      (run_pipeline args w).1 = .error .UpscaleViolation) := by
  refine ⟨⟨?_, ?_⟩, ?_, ?_, ?_, ?_, ?_, ?_⟩
  · intro hv
    unfold validate_output at hv
    split_ifs at hv with h1 h2 h3 h4 h5
    exact ⟨by omega, by omega, not_ne_iff.mp h3, by simpa using h4, by simpa using h5⟩
  · rintro ⟨ha, hb, hc, hd, he⟩
    unfold validate_output
    rw [if_neg (by omega), if_neg (by omega), if_neg (by simp [hc]),
      if_neg (by simp [hd]), if_neg (by simp [he])]
  · intro hgt
    unfold validate_output
    rw [if_pos hgt]
  · intro hle hgt
    unfold validate_output
    rw [if_neg (by omega), if_pos hgt]
  · intro hle1 hle2 hne
    unfold validate_output
    rw [if_neg (by omega), if_neg (by omega), if_pos hne]
  · intro hle1 hle2 heq hao
    unfold validate_output
    rw [if_neg (by omega), if_neg (by omega), if_neg (by simp [heq]), if_pos (by simp [hao])]
  · intro hle1 hle2 heq hao hmp
    unfold validate_output
    rw [if_neg (by omega), if_neg (by omega), if_neg (by simp [heq]),
      if_neg (by simp [hao]), if_pos (by simp [hmp])]
  · intro hor
    have hv : validate_output inp out = .error .UpscaleViolation := by
      unfold validate_output
      rcases hor with hgt | hgt
      · rw [if_pos hgt]
      · by_cases h1 : out.height > inp.height
        · rw [if_pos h1]
        · rw [if_neg h1, if_pos hgt]
    simp [run_pipeline, hs, ht, ho, hv]

/-- Witness for C1: a pipeline run whose transcode output is 3840x2160
against a 1920x1080 input fails with `UpscaleViolation`. -/
theorem validator_checks_witness :
    (run_pipeline sample_args sample_world_upscaled).1 = .error .UpscaleViolation :=
  (validator_checks sample_args sample_world_upscaled sample_inp sample_out_upscaled
    rfl rfl rfl).2.2.2.2.2.2 (Or.inl (by decide))

/-- C2: any run that issued a durable side effect had passed output
validation; a run that failed with any error other than `CatalogError`
(that is, in any stage before the catalog write) issued no catalog write
at all; and the effect trace is always all object-store uploads followed
by all catalog writes, so the catalog insert comes last. -/
theorem pipeline_ordering (args : Args) (w : World) (inp out : ProbeInfo)
    (hs : w.probe_src = .ok inp) (ho : w.probe_out = .ok out) :
    ((run_pipeline args w).2 ≠ [] → validate_output inp out = .ok ()) ∧
    (failed_before_catalog (run_pipeline args w).1 = true →
      (run_pipeline args w).2.filter Effect.isCatalogWrite = []) ∧
    (run_pipeline args w).2 =
      (run_pipeline args w).2.filter Effect.isUpload ++
        (run_pipeline args w).2.filter Effect.isCatalogWrite := by
  rcases run_pipeline_master args w with ⟨hemp, _⟩ |
    ⟨inp', out', te, hmcs, hdry', hps', htc', hpo', hv', hth', henc', hidx', hshapes⟩
  · refine ⟨fun hne => absurd hemp hne, fun _ => by rw [hemp]; rfl, by rw [hemp]; rfl⟩
  · rw [hps'] at hs
    injection hs with hinp
    subst hinp
    rw [hpo'] at ho
    injection ho with hout
    subst hout
    refine ⟨fun _ => hv', ?_, ?_⟩
    · rcases hshapes with heq | heq | ⟨hbad, heq⟩ | ⟨l, hresp, hlen, heq⟩ <;>
        intro hfail <;>
        simp [heq, failed_before_catalog, Effect.isCatalogWrite, List.filter] at hfail ⊢
    · rcases hshapes with heq | heq | ⟨hbad, heq⟩ | ⟨l, hresp, hlen, heq⟩ <;>
        simp [heq, Effect.isCatalogWrite, Effect.isUpload, List.filter]

/-- Witness for C2: a run whose output fails validation issues no effect
at all, and the effect trace of a fully successful run is its uploads
followed by its catalog writes. -/
theorem pipeline_ordering_witness :
    (run_pipeline sample_args sample_world_upscaled).2.filter Effect.isCatalogWrite = [] ∧
    (run_pipeline sample_args sample_world_upscaled).2 =
      (run_pipeline sample_args sample_world_upscaled).2.filter Effect.isUpload ++
        (run_pipeline sample_args sample_world_upscaled).2.filter Effect.isCatalogWrite :=
  ⟨(pipeline_ordering sample_args sample_world_upscaled sample_inp sample_out_upscaled
      rfl rfl).2.1 (by decide),
   (pipeline_ordering sample_args sample_world_upscaled sample_inp sample_out_upscaled
      rfl rfl).2.2⟩

/-- C6: tag indexing fails with `NoValidTagsError` exactly when no piece
of the comma-split input survives trimming and lowercasing; otherwise it
produces exactly one HMAC-SHA256 hex digest per surviving token, in input
order and without deduplication; the input "Beach, beach ,  Summer"
yields the tokens beach, beach, summer, hence exactly three entries of
which the first two carry identical digests. -/
theorem tag_indexing_blind_index (tags key_b64 : String) (keyBytes : List Nat)
    (hk : b64_to_bytes key_b64 = some keyBytes) :
    (index_tags tags key_b64 = .error .NoValidTagsError ↔ tag_tokens_of tags = []) ∧
    (tag_tokens_of tags ≠ [] →
      index_tags tags key_b64 = .ok ((tag_tokens_of tags).map
        (fun t => bytesToHex (hmac_sha256 keyBytes (utf8Bytes t))))) ∧
    tag_tokens_of "Beach, beach ,  Summer" = ["beach", "beach", "summer"] ∧
    (∀ hs2, index_tags "Beach, beach ,  Summer" key_b64 = .ok hs2 →
      hs2.length = 3 ∧ hs2.getD 0 "" = hs2.getD 1 "") := by
  have htok : tag_tokens_of "Beach, beach ,  Summer" = ["beach", "beach", "summer"] := by
    decide
  refine ⟨⟨?_, ?_⟩, fun hne => index_tags_ok tags key_b64 keyBytes hk hne, htok, ?_⟩
  · intro he
    by_contra hne
    rw [index_tags_ok tags key_b64 keyBytes hk hne] at he
    exact Except.noConfusion he
  · intro hemp
    simp [index_tags, hemp]
  · intro hs2 hok
    rw [index_tags_ok "Beach, beach ,  Summer" key_b64 keyBytes hk
      (by rw [htok]; exact List.cons_ne_nil _ _)] at hok
    injection hok with h3
    subst h3
    rw [htok]
    exact ⟨rfl, rfl⟩

/-- Witness for C6 at the HMAC key that decodes to the empty byte string
and the tag input from the claim. -/
theorem tag_indexing_blind_index_witness :
    b64_to_bytes "" = some [] ∧
    tag_tokens_of "Beach, beach ,  Summer" = ["beach", "beach", "summer"] :=
  ⟨by decide, (tag_indexing_blind_index "Beach, beach ,  Summer" "" [] (by decide)).2.2.1⟩

/-- C7: with a key that decodes to any length other than 32 bytes, title
encryption fails with `KeyConfigurationError`; with a 32-byte key it
returns the base64 encoding of the compact JSON envelope whose fields are
the schema version 1, the fixed algorithm identifier `A256GCM`, the
base64 nonce, and the base64 ciphertext-plus-tag. -/
theorem encrypt_envelope_structure (aesgcm : List Nat → List Nat → List Nat → List Nat)
    (iv : List Nat) (title key_b64 : String) (keyBytes : List Nat)
    (hk : b64_to_bytes key_b64 = some keyBytes) :
    (keyBytes.length ≠ 32 →
      encrypt_title_envelope_b64 aesgcm iv title key_b64 = .error .KeyConfigurationError) ∧
    (keyBytes.length = 32 →
      encrypt_title_envelope_b64 aesgcm iv title key_b64 =
        .ok (bytes_to_b64 (utf8Bytes (envelope_json (bytes_to_b64 iv)
          (bytes_to_b64 (aesgcm keyBytes iv (utf8Bytes title))))))) := by
  constructor
  · intro hne
    simp [encrypt_title_envelope_b64, hk, hne]
  · intro he
    simp [encrypt_title_envelope_b64, hk, he]

/-- Witness for C7: the 4-character key decodes to 3 bytes and is
rejected with `KeyConfigurationError`; the sample 32-byte key yields the
base64-encoded JSON envelope. -/
theorem encrypt_envelope_structure_witness :
    b64_to_bytes "AAAA" = some [0, 0, 0] ∧
    encrypt_title_envelope_b64 (fun _ _ _ => []) [] "t" "AAAA" =
      .error .KeyConfigurationError ∧
    encrypt_title_envelope_b64 (fun _ _ _ => []) [] "t" sample_key_b64 =
      .ok (bytes_to_b64 (utf8Bytes (envelope_json (bytes_to_b64 []) (bytes_to_b64 [])))) := by
  refine ⟨by decide, ?_, ?_⟩
  · exact (encrypt_envelope_structure (fun _ _ _ => []) [] "t" "AAAA" [0, 0, 0]
      (by decide)).1 (by decide)
  · exact (encrypt_envelope_structure (fun _ _ _ => []) [] "t" sample_key_b64
      (List.replicate 32 0) (by decide)).2 (by decide)

/-- C8: when a catalog write was issued but the store reported anything
other than exactly one inserted row, the run fails with `CatalogError`
and no tag-row insert is issued; when a tag-row insert was issued, the
video insert had succeeded with exactly one row, the tag insert follows
the video insert, and every tag row references the identifier returned by
the video insert. -/
theorem catalog_insert_checked (args : Args) (w : World) :
    ((run_pipeline args w).2.filter Effect.isCatalogWrite ≠ [] →
      bad_insert_resp w.insert_video_resp = true →
      (run_pipeline args w).1 = .error .CatalogError ∧
      (run_pipeline args w).2.filter Effect.isInsertTags = []) ∧
    ((run_pipeline args w).2.filter Effect.isInsertTags ≠ [] →
      bad_insert_resp w.insert_video_resp = false ∧
      ∃ l row rows, w.insert_video_resp = some l ∧ l.length = 1 ∧
        (run_pipeline args w).2.filter Effect.isCatalogWrite =
          [.insertVideo row, .insertTags rows] ∧
        ∀ r ∈ rows, r.1 = l.getD 0 0) := by
  rcases run_pipeline_master args w with ⟨hemp, _⟩ |
    ⟨inp, out, te, hmcs, hdry', hps', htc', hpo', hv', hth', henc', hidx', hshapes⟩
  · constructor
    · intro hne
      exact absurd (by rw [hemp]; rfl) hne
    · intro hne
      exact absurd (by rw [hemp]; rfl) hne
  · rcases hshapes with heq | heq | ⟨hbad, heq⟩ | ⟨l, hresp, hlen, heq⟩
    · constructor <;> intro hne <;>
        exact absurd (by simp [heq, Effect.isCatalogWrite, Effect.isInsertTags, List.filter]) hne
    · constructor <;> intro hne <;>
        exact absurd (by simp [heq, Effect.isCatalogWrite, Effect.isInsertTags, List.filter]) hne
    · constructor
      · intro _ _
        constructor
        · simp [heq]
        · simp [heq, Effect.isInsertTags, List.filter, Effect.isUpload]
      · intro hne
        exact absurd (by simp [heq, Effect.isInsertTags, List.filter]) hne
    · constructor
      · intro _ hbad
        rw [hresp] at hbad
        simp [bad_insert_resp, hlen] at hbad
      · intro _
        refine ⟨by simp [bad_insert_resp, hresp, hlen], l,
          video_row_of te out args w, hmcs.map (fun h2 => (l.getD 0 0, h2)),
          hresp, hlen, by simp [heq, Effect.isCatalogWrite, List.filter], ?_⟩
        intro r hr
        rw [List.mem_map] at hr
        obtain ⟨h2, _, rfl⟩ := hr
        rfl

/-- Witness for C8: a run whose catalog store reports zero inserted rows
fails with `CatalogError` and issues no tag-row insert. -/
theorem catalog_insert_checked_witness :
    (run_pipeline sample_args sample_world_badresp).1 = .error .CatalogError ∧
    (run_pipeline sample_args sample_world_badresp).2.filter Effect.isInsertTags = [] :=
  (catalog_insert_checked sample_args sample_world_badresp).1 (by decide) (by decide)

/-- C9: on a dry run no object-store or catalog-store effect is issued;
the run's outcome is independent of the store oracles (upload results and
insert response); and when probe, transcode, validation, thumbnail,
title encryption, and tag indexing all succeed, the returned result is
success. -/
theorem dry_run_frame (args : Args) (w : World) (hdry : args.dry_run = true) :
    (run_pipeline args w).2 = [] ∧
    (∀ b1 b2 r, run_pipeline args
        { w with upload_video_ok := b1, upload_thumb_ok := b2, insert_video_resp := r } =
      run_pipeline args w) ∧
    (∀ inp out, w.probe_src = .ok inp → w.transcode_ok = true → w.probe_out = .ok out →
      validate_output inp out = .ok () → w.thumb_ok = true →
      (∃ s, encrypt_title_envelope_b64 w.aesgcm w.iv args.title w.aes_key_b64 = .ok s) →
      (∃ l, index_tags args.tags w.tag_key_b64 = .ok l) →
      (run_pipeline args w).1 = .ok ()) := by
  refine ⟨?_, ?_, ?_⟩
  · rcases run_pipeline_master args w with ⟨hemp, _⟩ |
      ⟨_, _, _, _, hdry', _⟩
    · exact hemp
    · rw [hdry] at hdry'
      exact Bool.noConfusion hdry'
  · intro b1 b2 r
    cases hps : w.probe_src with
    | error u => simp [run_pipeline, hps]
    | ok inp =>
    cases htc : w.transcode_ok with
    | false => simp [run_pipeline, hps, htc]
    | true =>
    cases hpo : w.probe_out with
    | error u => simp [run_pipeline, hps, htc, hpo]
    | ok out =>
    cases hv : validate_output inp out with
    | error e => simp [run_pipeline, hps, htc, hpo, hv]
    | ok u =>
    cases u
    cases hth : w.thumb_ok with
    | false => simp [run_pipeline, hps, htc, hpo, hv, hth]
    | true =>
    cases henc : encrypt_title_envelope_b64 w.aesgcm w.iv args.title w.aes_key_b64 with
    | error e => simp [run_pipeline, hps, htc, hpo, hv, hth, henc]
    | ok te =>
    cases hidx : index_tags args.tags w.tag_key_b64 with
    | error e => simp [run_pipeline, hps, htc, hpo, hv, hth, henc, hidx]
    | ok hmcs => simp [run_pipeline, hps, htc, hpo, hv, hth, henc, hidx, hdry]
  · rintro inp out hps htc hpo hv hth ⟨s, henc⟩ ⟨l2, hidx⟩
    simp [run_pipeline, hps, htc, hpo, hv, hth, henc, hidx, hdry]

/-- Witness for C9: a dry run over the fully valid sample world issues no
effect and returns success. -/
theorem dry_run_frame_witness :
    (run_pipeline sample_args_dry sample_world).2 = [] ∧
    (run_pipeline sample_args_dry sample_world).1 = .ok () :=
  ⟨(dry_run_frame sample_args_dry sample_world rfl).1,
   (dry_run_frame sample_args_dry sample_world rfl).2.2 sample_inp sample_out
     rfl rfl rfl rfl rfl ⟨_, rfl⟩ ⟨_, rfl⟩⟩

/-- C10: every successful non-dry-run ingestion uploaded the video and
thumbnail and committed exactly one video row followed by its tag rows;
the committed row has its publication flag set to `true`, and its video
and thumbnail storage keys embed the same fresh object identifier,
differing only in their prefix and their `.mp4` / `.jpg` extension. -/
theorem published_and_shared_id (args : Args) (w : World)
    (hdry : args.dry_run = false) (hok : (run_pipeline args w).1 = .ok ()) :
    ∃ row rows,
      (run_pipeline args w).2 =
        [.upload w.bucket (video_key_of args w) "video/mp4",
         .upload w.bucket (thumb_key_of args w) "image/jpeg",
         .insertVideo row, .insertTags rows] ∧
      row.published = true ∧
      row.r2_video_key = rstrip_slashes args.video_prefix_arg ++ "/" ++ w.obj_id ++ ".mp4" ∧
      row.r2_thumb_key = rstrip_slashes args.thumb_prefix_arg ++ "/" ++ w.obj_id ++ ".jpg" := by
  rcases run_pipeline_master args w with ⟨_, himp⟩ |
    ⟨inp, out, te, hmcs, hdry', hps', htc', hpo', hv', hth', henc', hidx', hshapes⟩
  · rw [himp hok] at hdry
    exact Bool.noConfusion hdry
  · rcases hshapes with heq | heq | ⟨hbad, heq⟩ | ⟨l, hresp, hlen, heq⟩
    · simp [heq] at hok
    · simp [heq] at hok
    · simp [heq] at hok
    · exact ⟨video_row_of te out args w, hmcs.map (fun h2 => (l.getD 0 0, h2)),
        by simp [heq], rfl, rfl, rfl⟩

/-- Witness for C10: the fully successful sample run commits one
published row whose storage keys share the sample object id. -/
theorem published_and_shared_id_witness :
    ∃ row rows,
      (run_pipeline sample_args sample_world).2 =
        [.upload sample_world.bucket (video_key_of sample_args sample_world) "video/mp4",
         .upload sample_world.bucket (thumb_key_of sample_args sample_world) "image/jpeg",
         .insertVideo row, .insertTags rows] ∧
      row.published = true ∧
      row.r2_video_key =
        rstrip_slashes sample_args.video_prefix_arg ++ "/" ++ sample_world.obj_id ++ ".mp4" ∧
      row.r2_thumb_key =
        rstrip_slashes sample_args.thumb_prefix_arg ++ "/" ++ sample_world.obj_id ++ ".jpg" :=
  published_and_shared_id sample_args sample_world rfl rfl
